import Mathlib

/-!
Verification of the split-bot trading engine (`src/bot/`) against its
natural-language specification.

The Python sources are shallowly embedded as executable Lean definitions:

* `split_strategy.py` (`Purchase`, `StockConfig` and its strategy methods)
  becomes the `SplitBot.Purchase` / `SplitBot.StockConfig` structures and
  functions below.  Python ints are `ℤ` (round numbers, which are 1-based
  counters, are `ℕ`), Python floats that hold percentage rates, averages
  and timestamps are modelled as exact rationals `ℚ`, and Python's
  `int(·)` conversion (truncation toward zero) is `pytrunc`.
* `main.py`'s order coordinator (`SplitBot.on_price_update`,
  `SplitBot.execute_buy`) becomes the `executeBuy` function over an
  explicit broker environment `BrokerEnv` (each network call's result is
  a field), and a small-step event model (`BotState`, `stepArrive`,
  `stepComplete`) in which the asyncio per-instrument lock is explicit:
  an arriving tick is dropped when the lock is held, exactly as
  `on_price_update` does with `if lock.locked(): return`.
* `kis_api.py`'s token-refresh cooldown becomes `refreshCooldown` /
  `canRefreshToken` / `tokenFailuresAfterRefresh`.
* `supabase_client.py`'s reconciliation matching becomes
  `findMatchingPurchase` / `syncBuyOrderToPurchase` over a list model of
  the `bot_purchases` table.

Python `datetime.now()` values are passed in explicitly as rational
timestamps (seconds); `(a - b).total_seconds()` is plain subtraction.
-/

namespace SplitBot

/-- Python `int(q)` on a float/rational: truncation toward zero. -/
def pytrunc (q : ℚ) : ℤ := if 0 ≤ q then ⌊q⌋ else ⌈q⌉

/-- Python list indexing `l[i]` including negative indices (`l[-1]` is the
last element).  An index that is out of range raises `IndexError` in
Python; here it yields the default `0`, and every theorem that depends on
an index keeps it in range by hypothesis. -/
def pyListGet (l : List ℚ) (i : ℤ) : ℚ :=
  if 0 ≤ i then l.getD i.toNat 0
  else l.getD (l.length - (-i).toNat) 0

/-- Lifecycle status of a purchase record (`status` field: "holding"/"sold"). -/
inductive PStatus where
  | holding
  | sold
deriving DecidableEq, Repr

/-- Order side used for the pending flag (`_pending_type`: "buy"/"sell"). -/
inductive OrderType where
  | buy
  | sell
deriving DecidableEq, Repr

/-- Buy sizing mode (`buy_mode`: "amount"/"quantity"). -/
inductive BuyMode where
  | amount
  | quantity
deriving DecidableEq, Repr

/-- One purchase record (`Purchase` dataclass in `split_strategy.py`).
`date` and `soldDate` are timestamps in seconds. -/
structure Purchase where
  id : Option ℕ := none
  round : ℕ := 0
  price : ℤ := 0
  quantity : ℤ := 0
  date : ℚ := 0
  status : PStatus := PStatus.holding
  soldPrice : Option ℤ := none
  soldDate : Option ℚ := none
  triggerPrice : Option ℤ := none
deriving DecidableEq, Repr

/-- Per-instrument configuration and ledger (`StockConfig` dataclass).
`lastOrderTime` is a timestamp in seconds; the trailing three fields are
the `_order_pending` / `_pending_type` / `_pending_round` flags. -/
structure StockConfig where
  id : Option ℕ := none
  code : String := ""
  name : String := ""
  isActive : Bool := true
  buyAmount : ℤ := 100000
  buyMode : BuyMode := BuyMode.amount
  buyQuantity : ℤ := 1
  maxRounds : ℕ := 10
  splitRates : List ℚ := List.replicate 10 5
  targetRates : List ℚ := List.replicate 10 5
  stopLossRate : ℚ := 0
  purchases : List Purchase := []
  lastOrderTime : Option ℚ := none
  orderPending : Bool := false
  pendingType : Option OrderType := none
  pendingRound : Option ℕ := none
deriving DecidableEq, Repr

/-- Stable insertion of a purchase into a list sorted by ascending round:
the new element goes after every element whose round is `≤` its own. -/
def insertStable (p : Purchase) : List Purchase → List Purchase
  | [] => [p]
  | q :: rest => if p.round < q.round then p :: q :: rest else q :: insertStable p rest

/-- Stable sort by ascending `round`, mirroring Python's stable
`sorted(..., key=lambda p: p.round)`. -/
def sortByRound (l : List Purchase) : List Purchase :=
  l.foldl (fun acc p => insertStable p acc) []

/-- Round number of the last element of a purchase list, 0 when empty
(Python's `holdings[-1].round if holdings else 0`). -/
def lastRound (l : List Purchase) : ℕ :=
  match l.getLast? with
  | some p => p.round
  | none => 0

namespace StockConfig

/-- The `holding` purchases of the raw ledger list, unsorted. -/
def holdingFilter (s : StockConfig) : List Purchase :=
  s.purchases.filter (fun p => decide (p.status = PStatus.holding))

/-- `holding_purchases` property: holding records sorted by round. -/
def holdingPurchases (s : StockConfig) : List Purchase :=
  sortByRound s.holdingFilter

/-- `current_round` property: round of the last (highest) holding record,
or 0 when there are none. -/
def currentRound (s : StockConfig) : ℕ :=
  lastRound s.holdingPurchases

/-- `max_round` property (the user-configured `max_rounds`). -/
def maxRound (s : StockConfig) : ℕ := s.maxRounds

/-- `total_quantity` property. -/
def totalQuantity (s : StockConfig) : ℤ :=
  (s.holdingPurchases.map (fun p => p.quantity)).sum

/-- `total_invested` property. -/
def totalInvested (s : StockConfig) : ℤ :=
  (s.holdingPurchases.map (fun p => p.price * p.quantity)).sum

/-- `avg_price` property: blended average cost over holding records,
0 when there are none or the total quantity is not positive. -/
def avgPrice (s : StockConfig) : ℚ :=
  let holdings := s.holdingPurchases
  if holdings = [] then 0
  else
    let totalAmount : ℤ := (holdings.map (fun p => p.price * p.quantity)).sum
    let totalQty : ℤ := (holdings.map (fun p => p.quantity)).sum
    if 0 < totalQty then (totalAmount : ℚ) / (totalQty : ℚ) else 0

/-- `get_last_purchase`: the last holding record. -/
def getLastPurchase (s : StockConfig) : Option Purchase :=
  s.holdingPurchases.getLast?

/-- `get_next_split_price`: the next averaging-down trigger price, or
`none` when undefined. -/
def getNextSplitPrice (s : StockConfig) : Option ℤ :=
  if s.maxRound ≤ s.currentRound then none
  else if s.currentRound = 0 then none
  else
    match s.getLastPurchase with
    | none => none
    | some lastPurchase =>
      let nextRoundIdx := s.currentRound
      if s.splitRates.length ≤ nextRoundIdx then none
      else
        let rateIdx := min (nextRoundIdx - 1) (s.splitRates.length - 1)
        let splitRate := s.splitRates.getD rateIdx 0
        some (pytrunc ((lastPurchase.price : ℚ) * (1 - splitRate / 100)))

/-- Target-rate lookup for a given round number:
`target_rates[min(round - 1, len(target_rates) - 1)]` with Python index
semantics (a round of 0 yields index `-1`, the last element). -/
def targetRateFor (s : StockConfig) (round : ℕ) : ℚ :=
  pyListGet s.targetRates (min ((round : ℤ) - 1) ((s.targetRates.length : ℤ) - 1))

/-- Per-round sell target price
`int(purchase.price * (1 + target_rate / 100))`. -/
def sellTargetPrice (s : StockConfig) (p : Purchase) : ℤ :=
  pytrunc ((p.price : ℚ) * (1 + s.targetRateFor p.round / 100))

/-- `get_sellable_purchases`: every holding record whose sell target has
been reached at `price` (boundary inclusive). -/
def getSellablePurchases (s : StockConfig) (price : ℤ) : List Purchase :=
  s.holdingPurchases.filter (fun p => decide (s.sellTargetPrice p ≤ price))

/-- `set_order_pending`. -/
def setOrderPending (s : StockConfig) (t : OrderType) (roundNum : Option ℕ) : StockConfig :=
  { s with orderPending := true, pendingType := some t, pendingRound := roundNum }

/-- `clear_order_pending`. -/
def clearOrderPending (s : StockConfig) : StockConfig :=
  { s with orderPending := false, pendingType := none, pendingRound := none }

/-- The 60-second re-order dwell check in `should_buy`: true when a last
order time exists and fewer than 60 seconds have elapsed. -/
def withinDwell (lastOrderTime : Option ℚ) (now : ℚ) : Bool :=
  match lastOrderTime with
  | some t => decide (now - t < 60)
  | none => false

/-- `should_buy` at time `now` for an observed `price`.  The final check
mirrors Python's `if split_price and current_price <= split_price:` — a
split price of `None` or `0` is falsy and disables the buy. -/
def shouldBuy (s : StockConfig) (now : ℚ) (price : ℤ) : Bool :=
  if !s.isActive then false
  else if s.maxRound ≤ s.currentRound then false
  else if s.currentRound = 0 then false
  else if s.orderPending then false
  else if withinDwell s.lastOrderTime now then false
  else
    match s.getNextSplitPrice with
    | some splitPrice => decide (splitPrice ≠ 0 ∧ price ≤ splitPrice)
    | none => false

/-- `should_sell`: the sellable rounds, minus the round with a pending
sell order. -/
def shouldSell (s : StockConfig) (price : ℤ) : List Purchase :=
  if !s.isActive || s.currentRound = 0 then []
  else
    let sellable := s.getSellablePurchases price
    if s.orderPending && s.pendingType == some OrderType.sell then
      sellable.filter (fun p => decide (some p.round ≠ s.pendingRound))
    else sellable

/-- `get_stop_loss_price`: `none` when disabled or the average price is
not positive. -/
def getStopLossPrice (s : StockConfig) : Option ℤ :=
  if s.stopLossRate ≤ 0 then none
  else
    let avg := s.avgPrice
    if avg ≤ 0 then none
    else some (pytrunc (avg * (1 - s.stopLossRate / 100)))

/-- `calculate_buy_quantity`: fixed share count, or notional divided by
price (Python floor division), minimum 1. -/
def calculateBuyQuantity (s : StockConfig) (price : ℤ) : ℤ :=
  if price ≤ 0 then 0
  else
    match s.buyMode with
    | BuyMode.quantity => max 1 s.buyQuantity
    | BuyMode.amount => max 1 (Int.fdiv s.buyAmount price)

/-- `add_purchase`: append a new holding record with round
`current_round + 1` and stamp `last_order_time`. -/
def addPurchase (s : StockConfig) (now : ℚ) (price quantity : ℤ)
    (purchaseId : Option ℕ) (triggerPrice : Option ℤ) : StockConfig × Purchase :=
  let newRound := s.currentRound + 1
  let p : Purchase :=
    { id := purchaseId, round := newRound, price := price, quantity := quantity,
      date := now, status := PStatus.holding, soldPrice := none, soldDate := none,
      triggerPrice := triggerPrice }
  ({ s with purchases := s.purchases ++ [p], lastOrderTime := some now }, p)

end StockConfig

/-- `mark_sold` applied to the first holding record with the given round
number (Python mutates the selected `Purchase` object in place; under the
no-duplicate-round invariant the selected object is exactly the first
holding record with that round). -/
def markFirstSold (roundNum : ℕ) (soldPrice : ℤ) (now : ℚ) :
    List Purchase → List Purchase
  | [] => []
  | p :: rest =>
    if p.status = PStatus.holding ∧ p.round = roundNum then
      { p with status := PStatus.sold, soldPrice := some soldPrice,
               soldDate := some now } :: rest
    else p :: markFirstSold roundNum soldPrice now rest

/-- Round numbers of the holding records (unsorted, as stored). -/
def holdingRounds (s : StockConfig) : List ℕ :=
  s.holdingFilter.map (fun p => p.round)

/-- The holding round numbers are exactly the contiguous range
`1..currentRound`, with no duplicates (stated as a permutation with
`List.range' 1 currentRound`, which also forces `Nodup`). -/
def ContiguousHoldings (s : StockConfig) : Prop :=
  List.Perm (holdingRounds s) (List.range' 1 s.currentRound)

instance (s : StockConfig) : Decidable (ContiguousHoldings s) :=
  List.decidablePerm (holdingRounds s) (List.range' 1 s.currentRound)

/-- A ledger operation: a buy (`add_purchase`, as performed both by the
live coordinator and by reconciliation once the fill is resolved) or a
sell of the current maximal holding round. -/
inductive LedgerOp where
  | buy (now : ℚ) (price quantity : ℤ)
  | sellMax (soldPrice : ℤ) (now : ℚ)

/-- Apply one ledger operation. -/
def applyOp (s : StockConfig) : LedgerOp → StockConfig
  | LedgerOp.buy now price quantity => (s.addPurchase now price quantity none none).1
  | LedgerOp.sellMax soldPrice now =>
    { s with purchases := markFirstSold s.currentRound soldPrice now s.purchases }

/-- Apply a sequence of ledger operations. -/
def applyOps (s : StockConfig) (ops : List LedgerOp) : StockConfig :=
  ops.foldl applyOp s

/-- Results of the brokerage network calls made inside `execute_buy`
(`main.py`).  `currentPrice` is `kis_api.get_current_price`'s return value,
which is `0` when the underlying quote request failed (`get_price`
returns an empty dict and `get_current_price` does `result.get("price", 0)`,
`kis_api.py` lines 639-642); `executedPrice` is
`kis_api.get_executed_price` (`≤ 0` means the fill price could not be
resolved); `dbSaveId` is `supabase.save_purchase`'s returned record id
(`none` on persistence failure). -/
structure BrokerEnv where
  currentPrice : ℤ
  orderSuccess : Bool
  executedPrice : ℤ
  dbSaveId : Option ℕ
deriving DecidableEq, Repr

/-- Observable outcome of one `execute_buy` call: the updated instrument
state plus which external effects were performed. -/
structure ExecOutcome where
  stock : StockConfig
  orderSubmitted : Bool
  dbSaveAttempted : Bool
  dbDeactivationSaved : Bool
  criticalAlert : Bool
deriving DecidableEq, Repr

/-- `MAX_SLIPPAGE_RATE` (`main.py` line 20). -/
def maxSlippageRate : ℚ := 3

/-- `SplitBot.MIN_AVAILABLE_AMOUNT` (`main.py` line 40). -/
def minAvailableAmount : ℤ := 30000

/-- The buying-power guard at the top of `execute_buy`: skip when a
cached available amount exists and is below the minimum. -/
def availTooLow (availableAmount : Option ℤ) : Bool :=
  match availableAmount with
  | some a => decide (a < minAvailableAmount)
  | none => false

/-- Set the id of the most recently appended purchase
(`purchase.id = purchase_id` on the record just created). -/
def setLastPurchaseId (pid : ℕ) : List Purchase → List Purchase
  | [] => []
  | [p] => [{ p with id := some pid }]
  | p :: q :: rest => p :: setLastPurchaseId pid (q :: rest)

/-- Shallow embedding of `SplitBot.execute_buy` (`main.py` lines 180-272).
The buying-power guard runs before the pending flag is set; the slippage
guard runs only when the re-fetched price is positive; the pending flag
is cleared on every path by the `finally` block (modelled by the final
`clearOrderPending`).  Dividing by a trigger price of `0` would raise in
Python; every theorem below assumes a positive trigger price. -/
def executeBuy (s : StockConfig) (env : BrokerEnv) (now : ℚ)
    (availableAmount : Option ℤ) (dbConfigured : Bool)
    (triggerPrice quantity : ℤ) (roundNum : ℕ) : ExecOutcome :=
  if availTooLow availableAmount then
    { stock := s, orderSubmitted := false, dbSaveAttempted := false,
      dbDeactivationSaved := false, criticalAlert := false }
  else
    let s1 := s.setOrderPending OrderType.buy (some roundNum)
    let core : ExecOutcome :=
      if 0 < env.currentPrice ∧
          |(env.currentPrice : ℚ) - (triggerPrice : ℚ)| / (triggerPrice : ℚ) * 100
            > maxSlippageRate then
        { stock := s1.clearOrderPending, orderSubmitted := false,
          dbSaveAttempted := false, dbDeactivationSaved := false,
          criticalAlert := false }
      else if env.orderSuccess then
        let executedPrice := if env.executedPrice ≤ 0 then triggerPrice
                             else env.executedPrice
        let s2 := (s1.addPurchase now executedPrice quantity none
                    (some triggerPrice)).1
        if dbConfigured && s.id.isSome then
          match env.dbSaveId with
          | some pid =>
            { stock := { s2 with purchases := setLastPurchaseId pid s2.purchases },
              orderSubmitted := true, dbSaveAttempted := true,
              dbDeactivationSaved := false, criticalAlert := false }
          | none =>
            { stock := { s2 with isActive := false }, orderSubmitted := true,
              dbSaveAttempted := true, dbDeactivationSaved := s.id.isSome,
              criticalAlert := true }
        else
          { stock := s2, orderSubmitted := true, dbSaveAttempted := false,
            dbDeactivationSaved := false, criticalAlert := false }
      else
        { stock := s1, orderSubmitted := true, dbSaveAttempted := false,
          dbDeactivationSaved := false, criticalAlert := false }
    { core with stock := core.stock.clearOrderPending }

/-- What the instrument's handler is doing while its asyncio lock is
held: submitting a buy for a given round, or selling a list of rounds. -/
inductive InFlight where
  | buySub (triggerPrice quantity : ℤ) (roundNum : ℕ)
  | sellSub (price : ℤ) (rounds : List Purchase)
deriving DecidableEq, Repr

/-- Per-instrument coordinator state for the tick-delivery model:
`inFlight` is `some _` exactly while the per-instrument lock is held
across a network call, `recentSellTime` is `_recent_sells[code]`, and
`buyAttempts` counts entries into `execute_buy`. -/
structure BotState where
  stock : StockConfig
  inFlight : Option InFlight
  recentSellTime : Option ℚ
  buyAttempts : ℕ
deriving Repr

/-- The 5-second post-sell quiet-period check in `on_price_update`. -/
def inQuietPeriod (recentSellTime : Option ℚ) (now : ℚ) : Bool :=
  match recentSellTime with
  | some t => decide (now - t < 5)
  | none => false

/-- One tick delivery (`on_price_update`, `main.py` lines 124-178) at the
granularity of the asyncio suspension points: a tick arriving while the
lock is held is dropped; otherwise the handler runs synchronously up to
the first order submission, which leaves the lock held (`inFlight`).
Sell evaluation runs first, then the 5-second post-sell quiet period,
then the buy evaluation.  The upstream gates that precede this code path
(bot enabled, market hours, buying-power guard) are assumed satisfied. -/
def stepArrive (now : ℚ) (price : ℤ) (st : BotState) : BotState :=
  if st.inFlight.isSome then st
  else
    match st.stock.shouldSell price with
    | [] =>
      if inQuietPeriod st.recentSellTime now then st
      else if st.stock.shouldBuy now price then
        let roundNum := st.stock.currentRound + 1
        let quantity := st.stock.calculateBuyQuantity price
        { stock := st.stock.setOrderPending OrderType.buy (some roundNum),
          inFlight := some (InFlight.buySub price quantity roundNum),
          recentSellTime := st.recentSellTime,
          buyAttempts := st.buyAttempts + 1 }
      else st
    | q :: rest =>
      { stock := st.stock.setOrderPending OrderType.sell (some q.round),
        inFlight := some (InFlight.sellSub price (q :: rest)),
        recentSellTime := st.recentSellTime,
        buyAttempts := st.buyAttempts }

/-- Completion of the in-flight network call: for a successful buy the
fill is recorded (`add_purchase`, stamping `last_order_time := now`) and
the pending flag is cleared by the `finally` block; for sells every sold
round is marked and the quiet-period timer is set.  The lock is
released. -/
def stepComplete (now : ℚ) (success : Bool) (st : BotState) : BotState :=
  match st.inFlight with
  | none => st
  | some (InFlight.buySub triggerPrice quantity _) =>
    let stock1 := if success then
        (st.stock.addPurchase now triggerPrice quantity none (some triggerPrice)).1
      else st.stock
    { stock := stock1.clearOrderPending, inFlight := none,
      recentSellTime := st.recentSellTime, buyAttempts := st.buyAttempts }
  | some (InFlight.sellSub price rounds) =>
    let stock1 := if success then
        rounds.foldl (fun acc p =>
          { acc with purchases := markFirstSold p.round price now acc.purchases }) st.stock
      else st.stock
    { stock := stock1.clearOrderPending, inFlight := none,
      recentSellTime := some now, buyAttempts := st.buyAttempts }

/-- Token-refresh cooldown in seconds after `failures` consecutive
failures: `min(120, 10 * (2 ** failures))` (`kis_api.py` line 191). -/
def refreshCooldown (failures : ℕ) : ℚ :=
  min 120 (10 * 2 ^ failures)

/-- `_can_refresh_token` (`kis_api.py` lines 183-196). -/
def canRefreshToken (lastRefresh : Option ℚ) (failures : ℕ) (now : ℚ) : Bool :=
  match lastRefresh with
  | none => true
  | some t => !(decide (now - t < refreshCooldown failures))

/-- Consecutive-failure counter after one `_refresh_token` call: reset to
0 on success (`kis_api.py` line 116), incremented on every failure path
(lines 128, 131, 134). -/
def tokenFailuresAfterRefresh (failures : ℕ) (success : Bool) : ℕ :=
  if success then 0 else failures + 1

/-- One row of the `bot_purchases` table as seen by the reconciliation
code in `supabase_client.py`. -/
structure DbPurchase where
  id : ℕ
  round : ℕ
  price : ℤ
  quantity : ℤ
  status : PStatus
deriving DecidableEq, Repr

/-- The Boolean matching test of `find_matching_purchase`: holding
status, price within 1 percent of the fill price (relative to the fill
price; `0` when the fill price is not positive), and exactly equal
quantity. -/
def matchesBuyFill (price quantity : ℤ) (p : DbPurchase) : Bool :=
  decide (p.status = PStatus.holding) &&
  decide ((if 0 < price then |(p.price : ℚ) - (price : ℚ)| / (price : ℚ) else 0)
            ≤ 1 / 100) &&
  decide (p.quantity = quantity)

/-- `find_matching_purchase` (`supabase_client.py` lines 505-518): first
holding row within 1 percent on price and exactly equal on quantity. -/
def findMatchingPurchase (purchases : List DbPurchase) (price quantity : ℤ) :
    Option DbPurchase :=
  purchases.find? (matchesBuyFill price quantity)

/-- Number of holding rows (`holding_count` in
`sync_buy_order_to_purchase`). -/
def holdingCount (purchases : List DbPurchase) : ℕ :=
  (purchases.filter (fun p => decide (p.status = PStatus.holding))).length

/-- `sync_buy_order_to_purchase` (`supabase_client.py` lines 531-564):
return the matched row's id, or synthesize a new holding row directly
from the fill with round `holding_count + 1`.  `newId` is the id the
insert would be assigned; the Boolean reports whether a row was
created. -/
def syncBuyOrderToPurchase (purchases : List DbPurchase) (newId : ℕ)
    (price quantity : ℤ) : List DbPurchase × Option ℕ × Bool :=
  match findMatchingPurchase purchases price quantity with
  | some p => (purchases, some p.id, false)
  | none =>
    let newRow : DbPurchase :=
      { id := newId, round := holdingCount purchases + 1,
        price := price, quantity := quantity, status := PStatus.holding }
    (purchases ++ [newRow], some newId, true)

/-- The availability cache allows a buy: either no cached value, or at
least the minimum buying power (`execute_buy`'s first guard proceeds
exactly in these cases). -/
def AvailOk (availableAmount : Option ℤ) : Prop :=
  availableAmount = none ∨
    ∃ a, availableAmount = some a ∧ minAvailableAmount ≤ a

/-- When the availability cache allows a buy, the guard does not fire. -/
lemma availTooLow_eq_false (availableAmount : Option ℤ)
    (hav : AvailOk availableAmount) : availTooLow availableAmount = false := by
  rcases hav with h | ⟨a, ha, hle⟩
  · rw [h]; rfl
  · rw [ha]
    unfold availTooLow
    simp only [decide_eq_false_iff_not, not_lt]
    exact hle

/-! ### Claim C4: next-split-price round trip -/

/-- C4 counterexample configuration: round 1 at price 1 with a 50 percent
split rate, so that `get_next_split_price` computes `int(1 * 0.5) = 0`. -/
def c4cfg : StockConfig :=
  { maxRounds := 2, splitRates := [50, 50],
    purchases := [{ round := 1, price := 1, quantity := 1 }] }

/-- C4 (counterexample).  The claim says that whenever the instrument is
active, `0 < currentRound < maxRounds`, no order is pending and the
60-second dwell is satisfied, feeding `nextSplitPrice()` back as the
current price makes the buy condition true.  This fails when the computed
split price is `0`: Python's `if split_price and current_price <=
split_price` treats `0` as falsy, so `should_buy` returns `False` even
though `0 ≤ 0`. -/
theorem c4_counterexample :
    c4cfg.isActive = true ∧ c4cfg.orderPending = false ∧
    0 < c4cfg.currentRound ∧ c4cfg.currentRound < c4cfg.maxRounds ∧
    c4cfg.lastOrderTime = none ∧
    c4cfg.getNextSplitPrice = some 0 ∧
    c4cfg.shouldBuy 0 0 = false := by
  refine ⟨rfl, rfl, by decide, by decide, rfl, ?_, ?_⟩
  · norm_num [c4cfg, StockConfig.getNextSplitPrice, StockConfig.currentRound, lastRound,
      StockConfig.holdingPurchases, StockConfig.holdingFilter, sortByRound,
      insertStable, StockConfig.getLastPurchase, StockConfig.maxRound, pytrunc]
  · norm_num [c4cfg, StockConfig.shouldBuy, StockConfig.getNextSplitPrice,
      StockConfig.currentRound, lastRound, StockConfig.holdingPurchases,
      StockConfig.holdingFilter, sortByRound, insertStable,
      StockConfig.getLastPurchase, StockConfig.maxRound, pytrunc]

/-- C4 (amended).  If the instrument is active, `0 < currentRound <
maxRounds`, no order is pending, the 60-second dwell since the last order
is satisfied, and `get_next_split_price` yields a nonzero value, then
feeding that value back as the current price makes `should_buy` true
(boundary inclusive). -/
theorem c4_split_price_roundtrip (s : StockConfig) (now : ℚ) (v : ℤ)
    (hact : s.isActive = true) (hpend : s.orderPending = false)
    (hlow : 0 < s.currentRound) (hhigh : s.currentRound < s.maxRounds)
    (hdwell : s.lastOrderTime = none ∨
      ∃ t, s.lastOrderTime = some t ∧ 60 ≤ now - t)
    (hsp : s.getNextSplitPrice = some v) (hv : v ≠ 0) :
    s.shouldBuy now v = true := by
  unfold StockConfig.shouldBuy
  have hmr : ¬ s.maxRound ≤ s.currentRound := by
    unfold StockConfig.maxRound; omega
  have hcr : ¬ s.currentRound = 0 := by omega
  rw [hact, hpend]
  simp only [Bool.not_true, Bool.false_eq_true, if_false, hmr, hcr, if_false]
  have hdw : StockConfig.withinDwell s.lastOrderTime now = false := by
    unfold StockConfig.withinDwell
    rcases hdwell with h | ⟨t, ht, hle⟩
    · rw [h]
    · rw [ht]
      simp only [decide_eq_false_iff_not, not_lt]
      exact hle
  rw [hdw]
  simp only [Bool.false_eq_true, if_false, hsp]
  simp [hv]

/-- C4 witness configuration: one holding round at 10,000 with 5 percent
split rates, whose next split price is 9,500. -/
def c4wcfg : StockConfig :=
  { purchases := [{ round := 1, price := 10000, quantity := 1 }] }

/-- C4 witness: the round-trip theorem applied at the concrete
configuration `c4wcfg`, whose next split price is 9,500. -/
theorem c4_witness :
    c4wcfg.getNextSplitPrice = some 9500 ∧ c4wcfg.shouldBuy 0 9500 = true := by
  have hsp : c4wcfg.getNextSplitPrice = some 9500 := by
    norm_num [c4wcfg, StockConfig.getNextSplitPrice, StockConfig.currentRound, lastRound,
      StockConfig.holdingPurchases, StockConfig.holdingFilter, sortByRound,
      insertStable, StockConfig.getLastPurchase, StockConfig.maxRound, pytrunc]
  exact ⟨hsp, c4_split_price_roundtrip c4wcfg 0 9500 rfl rfl
    (by decide) (by decide) (Or.inl rfl) hsp (by decide)⟩

/-! ### Claim C5: slippage guard -/

/-- C5.  If the re-fetched price is positive and differs from the trigger
price by strictly more than `MAX_SLIPPAGE_RATE` (3 percent) in relative
terms, the buy is abandoned without side effects: no order is submitted,
the ledger is unchanged, the instrument stays in its previous activation
state, and the pending flag ends cleared. -/
theorem c5_slippage_guard (s : StockConfig) (env : BrokerEnv) (now : ℚ)
    (availableAmount : Option ℤ) (dbConfigured : Bool)
    (triggerPrice quantity : ℤ) (roundNum : ℕ)
    (hav : AvailOk availableAmount)
    (hcp : 0 < env.currentPrice)
    (hslip : |(env.currentPrice : ℚ) - (triggerPrice : ℚ)| / (triggerPrice : ℚ) * 100
      > maxSlippageRate) :
    (executeBuy s env now availableAmount dbConfigured triggerPrice quantity
      roundNum).orderSubmitted = false ∧
    (executeBuy s env now availableAmount dbConfigured triggerPrice quantity
      roundNum).stock.purchases = s.purchases ∧
    (executeBuy s env now availableAmount dbConfigured triggerPrice quantity
      roundNum).stock.orderPending = false ∧
    (executeBuy s env now availableAmount dbConfigured triggerPrice quantity
      roundNum).stock.isActive = s.isActive ∧
    (executeBuy s env now availableAmount dbConfigured triggerPrice quantity
      roundNum).dbSaveAttempted = false ∧
    (executeBuy s env now availableAmount dbConfigured triggerPrice quantity
      roundNum).criticalAlert = false := by
  unfold executeBuy
  rw [availTooLow_eq_false availableAmount hav]
  simp only [Bool.false_eq_true, if_false]
  rw [if_pos ⟨hcp, hslip⟩]
  exact ⟨rfl, rfl, rfl, rfl, rfl, rfl⟩

/-- C5 witness environment: trigger 9,000, re-fetched 9,300
(10/3 percent > 3 percent). -/
def c5env : BrokerEnv :=
  { currentPrice := 9300, orderSuccess := true, executedPrice := 9000,
    dbSaveId := some 5 }

/-- C5 witness configuration. -/
def c5cfg : StockConfig :=
  { id := some 1, purchases := [{ round := 1, price := 10000, quantity := 1 }] }

/-- C5 witness: the slippage-guard theorem at trigger 9,000 and
re-fetched price 9,300. -/
theorem c5_witness :
    (executeBuy c5cfg c5env 0 none true 9000 11 2).orderSubmitted = false ∧
    (executeBuy c5cfg c5env 0 none true 9000 11 2).stock.purchases =
      c5cfg.purchases ∧
    (executeBuy c5cfg c5env 0 none true 9000 11 2).stock.orderPending = false ∧
    (executeBuy c5cfg c5env 0 none true 9000 11 2).stock.isActive =
      c5cfg.isActive ∧
    (executeBuy c5cfg c5env 0 none true 9000 11 2).dbSaveAttempted = false ∧
    (executeBuy c5cfg c5env 0 none true 9000 11 2).criticalAlert = false :=
  c5_slippage_guard c5cfg c5env 0 none true 9000 11 2 (Or.inl rfl)
    (by decide) (by norm_num [c5env, maxSlippageRate])

/-! ### Claim C6: price re-fetch failure before a buy -/

/-- C6 counterexample configuration. -/
def c6cfg : StockConfig :=
  { id := some 1, purchases := [{ round := 1, price := 10000, quantity := 1 }] }

/-- C6 counterexample environment: the pre-submission price re-fetch
fails (`get_current_price` returns 0). -/
def c6env : BrokerEnv :=
  { currentPrice := 0, orderSuccess := true, executedPrice := 9000,
    dbSaveId := some 5 }

/-- C6 (counterexample).  The claim says that when the slippage guard's
price re-fetch fails, no buy order is submitted on that tick.  In the
code, `get_current_price` returns `0` on failure and `execute_buy` only
runs the slippage comparison under `if current_price > 0:`, so on failure
the guard is skipped and the order is submitted anyway. -/
theorem c6_counterexample :
    c6env.currentPrice = 0 ∧
    (executeBuy c6cfg c6env 0 none true 9000 11 2).orderSubmitted = true := by
  refine ⟨rfl, ?_⟩
  norm_num [executeBuy, c6cfg, c6env, availTooLow, minAvailableAmount,
    maxSlippageRate, StockConfig.setOrderPending, StockConfig.clearOrderPending,
    StockConfig.addPurchase, setLastPurchaseId]

/-- C6 (amended).  When the pre-submission price re-fetch fails
(`get_current_price` returns `0`), the slippage guard is skipped and the
buy order is submitted anyway on that tick (whatever the submission's own
outcome). -/
theorem c6_refetch_failure_submits (s : StockConfig) (env : BrokerEnv)
    (now : ℚ) (availableAmount : Option ℤ) (dbConfigured : Bool)
    (triggerPrice quantity : ℤ) (roundNum : ℕ)
    (hav : AvailOk availableAmount)
    (hcp : env.currentPrice = 0) :
    (executeBuy s env now availableAmount dbConfigured triggerPrice quantity
      roundNum).orderSubmitted = true := by
  unfold executeBuy
  rw [availTooLow_eq_false availableAmount hav]
  simp only [Bool.false_eq_true, if_false]
  rw [if_neg (by rw [hcp]; rintro ⟨h, -⟩; exact absurd h (by norm_num))]
  by_cases ho : env.orderSuccess
  · rw [if_pos ho]
    by_cases hdb : (dbConfigured && s.id.isSome) = true
    · rw [if_pos hdb]
      cases env.dbSaveId <;> rfl
    · rw [if_neg hdb]
  · rw [if_neg ho]

/-- C6 witness: the amended theorem applied at a concrete failed
re-fetch. -/
theorem c6_witness :
    (executeBuy c6cfg c6env 5 (some 50000) true 9000 11 2).orderSubmitted
      = true :=
  c6_refetch_failure_submits c6cfg c6env 5 (some 50000) true 9000 11 2
    (Or.inr ⟨50000, rfl, by decide⟩) rfl

/-! ### Claim C7: token-refresh cooldown schedule -/

/-- C7 (counterexample).  The claim says the cooldown after consecutive
refresh failures follows 10s, 30s, 60s capped at 120s.  The code computes
`min(120, 10 * (2 ** failures))`, whose value after one failure is 20
seconds, not 30. -/
theorem c7_counterexample :
    refreshCooldown 1 = 20 ∧ (20 : ℚ) ≠ 30 := by
  constructor
  · norm_num [refreshCooldown]
  · norm_num

/-- C7 (amended).  The token-refresh cooldown is
`min(120, 10 · 2^failures)`: 10s, 20s, 40s, 80s, then capped at 120s for
four or more consecutive failures; `_can_refresh_token` allows a refresh
exactly when the elapsed time since the last attempt is at least the
cooldown, and a successful `_refresh_token` resets the failure counter to
zero. -/
theorem c7_cooldown_schedule :
    refreshCooldown 0 = 10 ∧ refreshCooldown 1 = 20 ∧
    refreshCooldown 2 = 40 ∧ refreshCooldown 3 = 80 ∧
    (∀ f, 4 ≤ f → refreshCooldown f = 120) ∧
    (∀ f, tokenFailuresAfterRefresh f true = 0) ∧
    (∀ t f now, canRefreshToken (some t) f now = true ↔
      refreshCooldown f ≤ now - t) := by
  refine ⟨by norm_num [refreshCooldown], by norm_num [refreshCooldown],
    by norm_num [refreshCooldown], by norm_num [refreshCooldown], ?_, ?_, ?_⟩
  · intro f hf
    unfold refreshCooldown
    have h16 : (16 : ℚ) ≤ 2 ^ f := by
      calc (16 : ℚ) = 2 ^ 4 := by norm_num
        _ ≤ 2 ^ f := by
          exact pow_le_pow_right₀ (by norm_num) hf
    have : (120 : ℚ) ≤ 10 * 2 ^ f := by nlinarith
    exact min_eq_left this
  · intro f; rfl
  · intro t f now
    unfold canRefreshToken
    simp [not_lt]

/-- C7 witness: the amended theorem applied at seven consecutive
failures, where the cooldown is capped at 120 seconds. -/
theorem c7_witness : refreshCooldown 7 = 120 :=
  c7_cooldown_schedule.2.2.2.2.1 7 (by norm_num)

/-! ### Claim C8: persistence failure after a confirmed buy fill -/

/-- C8.  If the buy order succeeded but the persistence write failed
(`save_purchase` returned no id) for a configured instrument with a
store id, the instrument is deactivated in memory, the deactivation is
written to the store, a critical operator alert is raised, and the Round
created in memory from the fill is kept (appended to the ledger with the
executed price, falling back to the trigger price when the fill price
could not be resolved). -/
theorem c8_db_failure_deactivates (s : StockConfig) (env : BrokerEnv)
    (now : ℚ) (availableAmount : Option ℤ)
    (triggerPrice quantity : ℤ) (roundNum : ℕ)
    (hav : AvailOk availableAmount)
    (hnoslip : ¬(0 < env.currentPrice ∧
      |(env.currentPrice : ℚ) - (triggerPrice : ℚ)| / (triggerPrice : ℚ) * 100
        > maxSlippageRate))
    (hord : env.orderSuccess = true)
    (hid : s.id.isSome = true)
    (hdb : env.dbSaveId = none) :
    (executeBuy s env now availableAmount true triggerPrice quantity
      roundNum).stock.isActive = false ∧
    (executeBuy s env now availableAmount true triggerPrice quantity
      roundNum).dbDeactivationSaved = true ∧
    (executeBuy s env now availableAmount true triggerPrice quantity
      roundNum).criticalAlert = true ∧
    (executeBuy s env now availableAmount true triggerPrice quantity
      roundNum).stock.purchases = s.purchases ++
        [{ id := none, round := s.currentRound + 1,
           price := if env.executedPrice ≤ 0 then triggerPrice
                    else env.executedPrice,
           quantity := quantity, date := now, status := PStatus.holding,
           soldPrice := none, soldDate := none,
           triggerPrice := some triggerPrice }] ∧
    (executeBuy s env now availableAmount true triggerPrice quantity
      roundNum).orderSubmitted = true ∧
    (executeBuy s env now availableAmount true triggerPrice quantity
      roundNum).stock.orderPending = false := by
  unfold executeBuy
  rw [availTooLow_eq_false availableAmount hav]
  simp only [Bool.false_eq_true, if_false]
  rw [if_neg hnoslip, if_pos hord, if_pos (by rw [hid]; rfl), hdb]
  refine ⟨rfl, by rw [hid], rfl, ?_, rfl, rfl⟩
  rfl

/-- C8 witness environment: order succeeds, executed price resolved at
9,050, persistence write fails. -/
def c8env : BrokerEnv :=
  { currentPrice := 9000, orderSuccess := true, executedPrice := 9050,
    dbSaveId := none }

/-- C8 witness configuration. -/
def c8cfg : StockConfig :=
  { id := some 3, purchases := [{ round := 1, price := 10000, quantity := 1 }] }

/-- C8 witness: the deactivation theorem at a concrete failed
persistence write. -/
theorem c8_witness :
    (executeBuy c8cfg c8env 0 none true 9000 11 2).stock.isActive = false ∧
    (executeBuy c8cfg c8env 0 none true 9000 11 2).dbDeactivationSaved = true ∧
    (executeBuy c8cfg c8env 0 none true 9000 11 2).criticalAlert = true ∧
    (executeBuy c8cfg c8env 0 none true 9000 11 2).stock.purchases =
      c8cfg.purchases ++
        [{ id := none, round := c8cfg.currentRound + 1,
           price := if c8env.executedPrice ≤ 0 then 9000
                    else c8env.executedPrice,
           quantity := 11, date := 0, status := PStatus.holding,
           soldPrice := none, soldDate := none, triggerPrice := some 9000 }] ∧
    (executeBuy c8cfg c8env 0 none true 9000 11 2).orderSubmitted = true ∧
    (executeBuy c8cfg c8env 0 none true 9000 11 2).stock.orderPending = false :=
  c8_db_failure_deactivates c8cfg c8env 0 none 9000 11 2 (Or.inl rfl)
    (by norm_num [c8env, maxSlippageRate]) rfl rfl rfl

/-! ### Claim C10: derived properties are total -/

/-- C10.  For a configuration with no holding purchases, or whose holding
purchases have zero total quantity, the derived average price is 0
(rather than a division-by-zero error) and the stop-loss price is
undefined (`none`).  All derived properties here are total Lean
functions by construction. -/
theorem c10_derived_totals (s : StockConfig)
    (h : s.holdingPurchases = [] ∨ s.totalQuantity = 0) :
    s.avgPrice = 0 ∧ s.getStopLossPrice = none := by
  have havg : s.avgPrice = 0 := by
    unfold StockConfig.avgPrice
    rcases h with h | h
    · rw [if_pos h]
    · by_cases he : s.holdingPurchases = []
      · rw [if_pos he]
      · rw [if_neg he]
        have hq : ¬ (0 < (s.holdingPurchases.map (fun p => p.quantity)).sum) := by
          unfold StockConfig.totalQuantity at h
          omega
        simp only [hq, if_false]
  refine ⟨havg, ?_⟩
  unfold StockConfig.getStopLossPrice
  by_cases hr : s.stopLossRate ≤ 0
  · rw [if_pos hr]
  · rw [if_neg hr]
    simp only [havg, le_refl, if_pos]

/-- C10 witness configuration: an empty ledger. -/
def c10cfg : StockConfig := {}

/-- C10 witness: the totality theorem at the empty ledger. -/
theorem c10_witness : c10cfg.avgPrice = 0 ∧ c10cfg.getStopLossPrice = none :=
  c10_derived_totals c10cfg (Or.inl (by decide))

/-! ### Claim C3: sell-condition boundary -/

/-- C3 counterexample configuration: one holding round at price 10 with a
5 percent target rate, so the mathematical target is 10.5 while the code
truncates it to `int(10.5) = 10`. -/
def c3cfg : StockConfig :=
  { targetRates := [5], purchases := [{ round := 1, price := 10, quantity := 1 }] }

/-- The single holding purchase of `c3cfg`. -/
def c3purchase : Purchase := { round := 1, price := 10, quantity := 1 }

/-- C3 (counterexample).  The claim says a round `r` appears in the
sell-condition result iff `price ≥ r.price × (1 + targetRate/100)` with
exact arithmetic.  The code compares against the truncated target
`int(r.price * (1 + rate/100))`, so at round price 10, rate 5 percent
and current price 10 the round is returned although `10 < 10.5`. -/
theorem c3_counterexample :
    c3cfg.isActive = true ∧ c3cfg.currentRound ≠ 0 ∧
    c3cfg.orderPending = false ∧
    c3purchase ∈ c3cfg.shouldSell 10 ∧
    ¬ ((10 : ℚ) ≥ (c3purchase.price : ℚ) *
        (1 + c3cfg.targetRateFor c3purchase.round / 100)) := by
  refine ⟨rfl, by decide, rfl, ?_, ?_⟩
  · have h : c3cfg.shouldSell 10 = [c3purchase] := by
      norm_num [c3cfg, c3purchase, StockConfig.shouldSell,
        StockConfig.getSellablePurchases, StockConfig.sellTargetPrice,
        StockConfig.targetRateFor, pyListGet, pytrunc, StockConfig.currentRound, lastRound,
        StockConfig.holdingPurchases, StockConfig.holdingFilter, sortByRound,
        insertStable]
    rw [h]
    exact List.mem_singleton.mpr rfl
  · norm_num [c3cfg, c3purchase, StockConfig.targetRateFor, pyListGet]

/-- C3 (amended).  For an active instrument with a nonzero current round
and a nonempty `targetRates` list, a round `r` appears in the
sell-condition result at integer price `p` iff `r` is a holding round and
`p ≥ int(r.price × (1 + targetRates[min(r.round−1, len−1)] / 100))` —
the target truncated to an integer price unit, boundary inclusive —
provided no sell is pending for `r`'s round.  Multiple rounds crossing
their targets on the same tick are all returned (the iff holds for every
round simultaneously). -/
theorem c3_sellable_iff (s : StockConfig) (r : Purchase) (p : ℤ)
    (hact : s.isActive = true) (hcr : s.currentRound ≠ 0)
    (_htr : s.targetRates ≠ [])
    (hnp : ¬(s.orderPending = true ∧ s.pendingType = some OrderType.sell ∧
      s.pendingRound = some r.round)) :
    r ∈ s.shouldSell p ↔
      r ∈ s.holdingPurchases ∧
        pytrunc ((r.price : ℚ) * (1 + s.targetRateFor r.round / 100)) ≤ p := by
  have hsell : s.shouldSell p =
      (if s.orderPending && s.pendingType == some OrderType.sell then
        (s.getSellablePurchases p).filter
          (fun q => decide (some q.round ≠ s.pendingRound))
      else s.getSellablePurchases p) := by
    unfold StockConfig.shouldSell
    simp [hact, hcr]
  have hmem : (r ∈ s.getSellablePurchases p) ↔
      (r ∈ s.holdingPurchases ∧
        pytrunc ((r.price : ℚ) * (1 + s.targetRateFor r.round / 100)) ≤ p) := by
    unfold StockConfig.getSellablePurchases
    simp [List.mem_filter, StockConfig.sellTargetPrice]
  rw [hsell]
  by_cases hb : (s.orderPending && s.pendingType == some OrderType.sell) = true
  · rw [if_pos hb]
    have hpr : s.pendingRound ≠ some r.round := by
      intro hpr
      rcases (Bool.and_eq_true _ _).mp hb with ⟨h1, h2⟩
      exact hnp ⟨h1, by simpa using h2, hpr⟩
    rw [List.mem_filter]
    simp only [decide_eq_true_eq]
    constructor
    · rintro ⟨h1, -⟩
      exact hmem.mp h1
    · intro h
      exact ⟨hmem.mpr h, fun he => hpr he.symm⟩
  · rw [if_neg hb]
    exact hmem

/-- C3 witness configuration: two holding rounds at 10,000 and 9,000 with
5 percent targets; a price of 9,450 reaches round 2's target (9,450) but
not round 1's (10,500). -/
def c3wcfg : StockConfig :=
  { targetRates := [5, 5],
    purchases := [{ round := 1, price := 10000, quantity := 1 },
                  { round := 2, price := 9000, quantity := 2 }] }

/-- The second holding purchase of `c3wcfg`. -/
def c3wround2 : Purchase := { round := 2, price := 9000, quantity := 2 }

/-- C3 witness: the amended iff applied at `c3wcfg`, price 9,450, round 2
(sellable, boundary inclusive). -/
theorem c3_witness : c3wround2 ∈ c3wcfg.shouldSell 9450 := by
  refine (c3_sellable_iff c3wcfg c3wround2 9450 rfl (by decide) (by decide)
    ?_).mpr ⟨by decide, ?_⟩
  · rintro ⟨h, -, -⟩
    exact absurd h (by decide)
  · norm_num [c3wcfg, c3wround2, StockConfig.targetRateFor, pyListGet, pytrunc]

/-! ### Claim C9: reconciliation buy-fill matching -/

/-- The mathematical matching relation for a buy fill against a stored
row: holding status, relative price difference within 1 percent of the
fill price, exactly equal quantity. -/
def DbMatches (price quantity : ℤ) (q : DbPurchase) : Prop :=
  q.status = PStatus.holding ∧
  |(q.price : ℚ) - (price : ℚ)| / (price : ℚ) ≤ 1 / 100 ∧
  q.quantity = quantity

/-- For a positive fill price the code's Boolean test coincides with the
mathematical matching relation. -/
lemma matchesBuyFill_iff (price quantity : ℤ) (hp : 0 < price)
    (q : DbPurchase) :
    matchesBuyFill price quantity q = true ↔ DbMatches price quantity q := by
  unfold matchesBuyFill DbMatches
  simp [hp, and_assoc]

/-- C9.  A buy fill with positive price matches an existing holding row
iff some holding row is within 1 percent on price (relative to the fill
price) with exactly equal quantity, and the first such row is taken;
when no row matches, a new holding row is synthesized directly from the
fill's price and quantity (round = holding count + 1, bypassing
live-trade sizing), and replaying the same fill afterwards matches the
synthesized row and creates no duplicate. -/
theorem c9_reconciliation_matching (ps : List DbPurchase)
    (price quantity : ℤ) (n m : ℕ) (hp : 0 < price) :
    ((findMatchingPurchase ps price quantity).isSome = true ↔
      ∃ q ∈ ps, DbMatches price quantity q) ∧
    (∀ l1 q l2, ps = l1 ++ q :: l2 →
      (∀ x ∈ l1, ¬ DbMatches price quantity x) →
      DbMatches price quantity q →
      findMatchingPurchase ps price quantity = some q) ∧
    (findMatchingPurchase ps price quantity = none →
      syncBuyOrderToPurchase ps n price quantity =
        (ps ++ [{ id := n, round := holdingCount ps + 1, price := price,
                  quantity := quantity, status := PStatus.holding }],
         some n, true) ∧
      syncBuyOrderToPurchase
        (ps ++ [{ id := n, round := holdingCount ps + 1, price := price,
                  quantity := quantity, status := PStatus.holding }])
        m price quantity =
        (ps ++ [{ id := n, round := holdingCount ps + 1, price := price,
                  quantity := quantity, status := PStatus.holding }],
         some n, false)) := by
  have hrow : matchesBuyFill price quantity
      { id := n, round := holdingCount ps + 1, price := price,
        quantity := quantity, status := PStatus.holding } = true := by
    refine (matchesBuyFill_iff price quantity hp _).mpr ⟨rfl, ?_, rfl⟩
    simp
  refine ⟨?_, ?_, ?_⟩
  · unfold findMatchingPurchase
    rw [List.find?_isSome]
    constructor
    · rintro ⟨q, hq, hm⟩
      exact ⟨q, hq, (matchesBuyFill_iff price quantity hp q).mp hm⟩
    · rintro ⟨q, hq, hm⟩
      exact ⟨q, hq, (matchesBuyFill_iff price quantity hp q).mpr hm⟩
  · intro l1 q l2 hps hl1 hq
    subst hps
    unfold findMatchingPurchase
    rw [List.find?_append]
    have h1 : List.find? (matchesBuyFill price quantity) l1 = none :=
      List.find?_eq_none.mpr (fun x hx hm =>
        hl1 x hx ((matchesBuyFill_iff price quantity hp x).mp hm))
    rw [h1, List.find?_cons_of_pos _
      ((matchesBuyFill_iff price quantity hp q).mpr hq)]
    rfl
  · intro hnone
    have hsync1 : syncBuyOrderToPurchase ps n price quantity =
        (ps ++ [{ id := n, round := holdingCount ps + 1, price := price,
                  quantity := quantity, status := PStatus.holding }],
         some n, true) := by
      unfold syncBuyOrderToPurchase
      rw [hnone]
    refine ⟨hsync1, ?_⟩
    have hfind2 : findMatchingPurchase
        (ps ++ [{ id := n, round := holdingCount ps + 1, price := price,
                  quantity := quantity, status := PStatus.holding }])
        price quantity =
        some { id := n, round := holdingCount ps + 1, price := price,
               quantity := quantity, status := PStatus.holding } := by
      unfold findMatchingPurchase
      rw [List.find?_append]
      unfold findMatchingPurchase at hnone
      rw [hnone, List.find?_cons_of_pos _ hrow]
      rfl
    unfold syncBuyOrderToPurchase
    rw [hfind2]

/-- C9 witness table: one holding row of 100 shares at 9,005. -/
def c9db : List DbPurchase :=
  [{ id := 1, round := 1, price := 9005, quantity := 100,
     status := PStatus.holding }]

/-- C9 witness: the matching theorem applied at the spec's scenario — a
fill of 100 shares at 9,000 matches the holding row at 9,005
(0.06 percent difference). -/
theorem c9_witness : (findMatchingPurchase c9db 9000 100).isSome = true :=
  ((c9_reconciliation_matching c9db 9000 100 7 8 (by decide)).1).mpr
    ⟨{ id := 1, round := 1, price := 9005, quantity := 100,
       status := PStatus.holding },
     by decide, rfl, by norm_num, rfl⟩

/-! ### Claim C1: one buy attempt under concurrent tick delivery -/

/-- A pending order makes `should_buy` false, whatever the price. -/
lemma shouldBuy_of_pending (s : StockConfig) (now : ℚ) (price : ℤ)
    (h : s.orderPending = true) : s.shouldBuy now price = false := by
  unfold StockConfig.shouldBuy
  rw [h]
  simp

/-- Less than 60 seconds after the last order, `should_buy` is false. -/
lemma shouldBuy_of_recent (s : StockConfig) (now : ℚ) (price : ℤ) (t : ℚ)
    (ht : s.lastOrderTime = some t) (hlt : now - t < 60) :
    s.shouldBuy now price = false := by
  unfold StockConfig.shouldBuy StockConfig.withinDwell
  rw [ht]
  simp [hlt]

/-- A tick arriving while the per-instrument lock is held is dropped. -/
lemma stepArrive_of_inFlight (now : ℚ) (price : ℤ) (st : BotState)
    (h : st.inFlight.isSome = true) : stepArrive now price st = st := by
  unfold stepArrive
  rw [h]
  rfl

/-- C1.  From a quiescent state (lock free, nothing sellable at this
price, quiet period over, buy condition true), a first tick starts
exactly one buy submission; every further tick delivered while that
submission is in flight is dropped (the lock is held), so after any
number `n` of concurrent ticks at the same price exactly one buy attempt
has been made; the pending flag set for that (side, round) makes
re-evaluation of the buy condition false; and even after the submission
completes successfully, a further tick at the same instant starts no
second attempt (the 60-second dwell now blocks it). -/
theorem c1_concurrent_ticks_single_buy_attempt (st0 : BotState) (now : ℚ)
    (price : ℤ) (n : ℕ)
    (hif : st0.inFlight = none)
    (hsell : st0.stock.shouldSell price = [])
    (hquiet : ∀ t, st0.recentSellTime = some t → 5 ≤ now - t)
    (hbuy : st0.stock.shouldBuy now price = true)
    (hcnt : st0.buyAttempts = 0) :
    ((stepArrive now price)^[n] (stepArrive now price st0)).buyAttempts = 1 ∧
    ((stepArrive now price)^[n]
      (stepArrive now price st0)).stock.shouldBuy now price = false ∧
    (stepArrive now price (stepComplete now true
      ((stepArrive now price)^[n]
        (stepArrive now price st0)))).buyAttempts = 1 := by
  have hq : inQuietPeriod st0.recentSellTime now = false := by
    unfold inQuietPeriod
    cases hrs : st0.recentSellTime with
    | none => rfl
    | some t =>
      simp only [decide_eq_false_iff_not, not_lt]
      exact hquiet t hrs
  have harr : stepArrive now price st0 =
      { stock := st0.stock.setOrderPending OrderType.buy
          (some (st0.stock.currentRound + 1)),
        inFlight := some (InFlight.buySub price
          (st0.stock.calculateBuyQuantity price)
          (st0.stock.currentRound + 1)),
        recentSellTime := st0.recentSellTime,
        buyAttempts := st0.buyAttempts + 1 } := by
    unfold stepArrive
    rw [hif]
    simp only [Option.isSome_none, Bool.false_eq_true, if_false, hsell, hq,
      hbuy, if_true, if_false]
  have hfix : stepArrive now price (stepArrive now price st0) =
      stepArrive now price st0 := by
    rw [harr]
    exact stepArrive_of_inFlight now price _ rfl
  have hiter : (stepArrive now price)^[n] (stepArrive now price st0) =
      stepArrive now price st0 := Function.iterate_fixed hfix n
  rw [hiter, harr]
  refine ⟨by simp [hcnt], ?_, ?_⟩
  · exact shouldBuy_of_pending _ now price rfl
  · have hcomp : stepComplete now true
        { stock := st0.stock.setOrderPending OrderType.buy
            (some (st0.stock.currentRound + 1)),
          inFlight := some (InFlight.buySub price
            (st0.stock.calculateBuyQuantity price)
            (st0.stock.currentRound + 1)),
          recentSellTime := st0.recentSellTime,
          buyAttempts := st0.buyAttempts + 1 } =
      { stock := (((st0.stock.setOrderPending OrderType.buy
            (some (st0.stock.currentRound + 1))).addPurchase now price
            (st0.stock.calculateBuyQuantity price) none (some price)).1
            ).clearOrderPending,
        inFlight := none,
        recentSellTime := st0.recentSellTime,
        buyAttempts := st0.buyAttempts + 1 } := by
      unfold stepComplete
      rfl
    rw [hcomp]
    have hlast : ((((st0.stock.setOrderPending OrderType.buy
        (some (st0.stock.currentRound + 1))).addPurchase now price
        (st0.stock.calculateBuyQuantity price) none (some price)).1
        ).clearOrderPending).lastOrderTime = some now := rfl
    have hsb2 : ∀ q : ℤ, ((((st0.stock.setOrderPending OrderType.buy
        (some (st0.stock.currentRound + 1))).addPurchase now price
        (st0.stock.calculateBuyQuantity price) none (some price)).1
        ).clearOrderPending).shouldBuy now q = false := fun q =>
      shouldBuy_of_recent _ now q now hlast (by norm_num)
    unfold stepArrive
    simp only [Option.isSome_none, Bool.false_eq_true, if_false]
    cases hms : (((((st0.stock.setOrderPending OrderType.buy
        (some (st0.stock.currentRound + 1))).addPurchase now price
        (st0.stock.calculateBuyQuantity price) none (some price)).1
        ).clearOrderPending)).shouldSell price with
    | nil =>
      simp only [hsb2 price, Bool.false_eq_true, if_false]
      cases hqp : inQuietPeriod st0.recentSellTime now <;> simp [hcnt]
    | cons q rest => simp [hcnt]

/-- C1 witness state: one holding round at 10,000, 5 percent rates, lock
free, no recent sell; at price 9,500 the buy condition is true and
nothing is sellable. -/
def c1st0 : BotState :=
  { stock := { purchases := [{ round := 1, price := 10000, quantity := 1 }] },
    inFlight := none, recentSellTime := none, buyAttempts := 0 }

/-- C1 witness: five concurrent ticks at 9,500 produce exactly one buy
attempt. -/
theorem c1_witness :
    ((stepArrive 0 9500)^[5] (stepArrive 0 9500 c1st0)).buyAttempts = 1 :=
  (c1_concurrent_ticks_single_buy_attempt c1st0 0 9500 5 rfl
    (by norm_num [c1st0, StockConfig.shouldSell,
      StockConfig.getSellablePurchases, StockConfig.sellTargetPrice,
      StockConfig.targetRateFor, pyListGet, pytrunc, StockConfig.currentRound, lastRound,
      StockConfig.holdingPurchases, StockConfig.holdingFilter, sortByRound,
      insertStable])
    (fun t h => by cases h)
    (by norm_num [c1st0, StockConfig.shouldBuy, StockConfig.withinDwell,
      StockConfig.getNextSplitPrice, StockConfig.getLastPurchase,
      StockConfig.maxRound, pytrunc, StockConfig.currentRound, lastRound,
      StockConfig.holdingPurchases, StockConfig.holdingFilter, sortByRound,
      insertStable])
    rfl).1

/-! ### Claim C2: contiguity of holding round numbers -/

/-- Inserting into a list is a permutation of consing. -/
lemma insertStable_perm (p : Purchase) (l : List Purchase) :
    List.Perm (insertStable p l) (p :: l) := by
  induction l with
  | nil => exact List.Perm.refl _
  | cons q rest ih =>
    unfold insertStable
    by_cases h : p.round < q.round
    · rw [if_pos h]
    · rw [if_neg h]
      exact (List.Perm.cons q ih).trans (List.Perm.swap p q rest)

/-- Folding stable insertions permutes the input onto the accumulator. -/
lemma foldl_insert_perm (l : List Purchase) : ∀ acc : List Purchase,
    List.Perm (l.foldl (fun acc p => insertStable p acc) acc) (l ++ acc) := by
  induction l with
  | nil => intro acc; simp
  | cons x xs ih =>
    intro acc
    simp only [List.foldl_cons, List.cons_append]
    exact (ih (insertStable x acc)).trans
      ((List.Perm.append_left xs (insertStable_perm x acc)).trans
        List.perm_middle)

/-- `sortByRound` is a permutation of its input. -/
lemma sortByRound_perm (l : List Purchase) :
    List.Perm (sortByRound l) l := by
  have h := foldl_insert_perm l []
  simpa [sortByRound] using h

/-- Stable insertion preserves sortedness by round. -/
lemma insertStable_pairwise (p : Purchase) (l : List Purchase)
    (h : List.Pairwise (fun a b : Purchase => a.round ≤ b.round) l) :
    List.Pairwise (fun a b : Purchase => a.round ≤ b.round)
      (insertStable p l) := by
  induction l with
  | nil => simp [insertStable]
  | cons q rest ih =>
    rcases List.pairwise_cons.mp h with ⟨hq, hrest⟩
    unfold insertStable
    by_cases hlt : p.round < q.round
    · rw [if_pos hlt]
      refine List.pairwise_cons.mpr ⟨?_, h⟩
      intro b hb
      rcases List.mem_cons.mp hb with rfl | hb2
      · exact Nat.le_of_lt hlt
      · exact Nat.le_trans (Nat.le_of_lt hlt) (hq b hb2)
    · rw [if_neg hlt]
      refine List.pairwise_cons.mpr ⟨?_, ih hrest⟩
      intro b hb
      rcases List.mem_cons.mp ((insertStable_perm p rest).mem_iff.mp hb) with
        rfl | hb2
      · exact Nat.le_of_not_lt hlt
      · exact hq b hb2

/-- Folding stable insertions preserves sortedness of the accumulator. -/
lemma foldl_insert_pairwise (l : List Purchase) : ∀ acc : List Purchase,
    List.Pairwise (fun a b : Purchase => a.round ≤ b.round) acc →
    List.Pairwise (fun a b : Purchase => a.round ≤ b.round)
      (l.foldl (fun acc p => insertStable p acc) acc) := by
  induction l with
  | nil => intro acc h; exact h
  | cons x xs ih =>
    intro acc h
    simp only [List.foldl_cons]
    exact ih (insertStable x acc) (insertStable_pairwise x acc h)

/-- `sortByRound` produces a list sorted by round. -/
lemma sortByRound_pairwise (l : List Purchase) :
    List.Pairwise (fun a b : Purchase => a.round ≤ b.round)
      (sortByRound l) := by
  unfold sortByRound
  exact foldl_insert_pairwise l [] List.Pairwise.nil

/-- Maximum of a list of naturals, 0 when empty. -/
def natMax (l : List ℕ) : ℕ := l.foldr max 0

/-- `natMax` is invariant under permutation. -/
lemma natMax_perm {l1 l2 : List ℕ} (h : List.Perm l1 l2) :
    natMax l1 = natMax l2 := by
  induction h with
  | nil => rfl
  | cons x _ ih =>
    unfold natMax at *
    simp only [List.foldr_cons, ih]
  | swap x y l =>
    unfold natMax
    simp only [List.foldr_cons]
    exact max_left_comm y x _
  | trans _ _ ih1 ih2 => exact ih1.trans ih2

/-- `natMax` over an appended singleton. -/
lemma natMax_append_single (l : List ℕ) (x : ℕ) :
    natMax (l ++ [x]) = max (natMax l) x := by
  induction l with
  | nil => simp [natMax]
  | cons y ys ih =>
    unfold natMax at *
    simp only [List.cons_append, List.foldr_cons, ih]
    exact (max_assoc y _ x).symm

/-- Every member is bounded by `natMax`. -/
lemma le_natMax_of_mem {x : ℕ} {l : List ℕ} (h : x ∈ l) : x ≤ natMax l := by
  induction l with
  | nil => cases h
  | cons y ys ih =>
    unfold natMax at *
    rcases List.mem_cons.mp h with rfl | h2
    · exact Nat.le_max_left _ _
    · exact Nat.le_trans (ih h2) (Nat.le_max_right _ _)

/-- The last round of a round-sorted list is the maximum round. -/
lemma lastRound_eq_natMax (l : List Purchase)
    (h : List.Pairwise (fun a b : Purchase => a.round ≤ b.round) l) :
    lastRound l = natMax (l.map (fun p => p.round)) := by
  induction l with
  | nil => rfl
  | cons p rest ih =>
    rcases List.pairwise_cons.mp h with ⟨hp, hrest⟩
    cases rest with
    | nil => simp [lastRound, natMax]
    | cons q rest2 =>
      have hql : q.round ≤ natMax ((q :: rest2).map (fun p => p.round)) :=
        le_natMax_of_mem (by simp)
      have hpq : p.round ≤ q.round := hp q (by simp)
      have htail := ih hrest
      have hlast : lastRound (p :: q :: rest2) = lastRound (q :: rest2) := by
        unfold lastRound
        rw [List.getLast?_cons_cons]
      rw [hlast, htail]
      unfold natMax
      simp only [List.map_cons, List.foldr_cons]
      exact (Nat.max_eq_right (Nat.le_trans hpq hql)).symm

/-- `current_round` equals the maximum holding round number. -/
lemma currentRound_eq_natMax (s : StockConfig) :
    s.currentRound = natMax (holdingRounds s) := by
  unfold StockConfig.currentRound holdingRounds
  rw [lastRound_eq_natMax s.holdingPurchases (sortByRound_pairwise _)]
  exact natMax_perm ((sortByRound_perm s.holdingFilter).map _)

/-- Appending a buy extends the holding filter by the new record. -/
lemma holdingFilter_addPurchase (s : StockConfig) (now : ℚ)
    (price quantity : ℤ) (pid : Option ℕ) (trig : Option ℤ) :
    ((s.addPurchase now price quantity pid trig).1).holdingFilter =
      s.holdingFilter ++ [(s.addPurchase now price quantity pid trig).2] := by
  unfold StockConfig.addPurchase StockConfig.holdingFilter
  simp [List.filter_append]

/-- Appending a buy extends the holding rounds by `currentRound + 1`. -/
lemma holdingRounds_addPurchase (s : StockConfig) (now : ℚ)
    (price quantity : ℤ) (pid : Option ℕ) (trig : Option ℤ) :
    holdingRounds (s.addPurchase now price quantity pid trig).1 =
      holdingRounds s ++ [s.currentRound + 1] := by
  unfold holdingRounds
  rw [holdingFilter_addPurchase]
  simp [StockConfig.addPurchase]

/-- A buy advances `current_round` by exactly one. -/
lemma currentRound_addPurchase (s : StockConfig) (now : ℚ)
    (price quantity : ℤ) (pid : Option ℕ) (trig : Option ℤ) :
    ((s.addPurchase now price quantity pid trig).1).currentRound =
      s.currentRound + 1 := by
  rw [currentRound_eq_natMax, holdingRounds_addPurchase, natMax_append_single,
    ← currentRound_eq_natMax]
  omega

/-- Remove the first record with the given round from a list. -/
def removeFirstRound (r : ℕ) : List Purchase → List Purchase
  | [] => []
  | p :: rest => if p.round = r then rest else p :: removeFirstRound r rest

/-- Marking the first holding round-`r` record sold removes exactly that
record from the holding filter. -/
lemma filter_markFirstSold (r : ℕ) (sp : ℤ) (now : ℚ) (l : List Purchase) :
    (markFirstSold r sp now l).filter
        (fun p => decide (p.status = PStatus.holding)) =
      removeFirstRound r
        (l.filter (fun p => decide (p.status = PStatus.holding))) := by
  induction l with
  | nil => rfl
  | cons p rest ih =>
    unfold markFirstSold
    by_cases hp : p.status = PStatus.holding ∧ p.round = r
    · rw [if_pos hp]
      simp [List.filter_cons, hp.1, removeFirstRound, hp.2]
    · rw [if_neg hp]
      by_cases hh : p.status = PStatus.holding
      · have hr : p.round ≠ r := fun hr => hp ⟨hh, hr⟩
        simp [List.filter_cons, hh, removeFirstRound, hr, ih]
      · simp [List.filter_cons, hh, ih]

/-- Removing the first round-`r` record erases `r` from the round list. -/
lemma map_removeFirstRound (r : ℕ) (l : List Purchase) :
    (removeFirstRound r l).map (fun p => p.round) =
      (l.map (fun p => p.round)).erase r := by
  induction l with
  | nil => rfl
  | cons p rest ih =>
    unfold removeFirstRound
    by_cases hp : p.round = r
    · rw [if_pos hp]
      simp [List.erase_cons, hp]
    · rw [if_neg hp]
      simp [List.erase_cons, hp, ih]

/-- Maximum of the range `1..k` is `k`. -/
lemma natMax_range' (k : ℕ) : natMax (List.range' 1 k) = k := by
  induction k with
  | zero => rfl
  | succ n ih =>
    rw [List.range'_concat, natMax_append_single, ih]
    omega

/-- Erasing the endpoint of the range `1..k` gives the range `1..k-1`. -/
lemma range'_one_erase (k : ℕ) :
    (List.range' 1 k).erase k = List.range' 1 (k - 1) := by
  cases k with
  | zero => rfl
  | succ n =>
    rw [List.range'_concat]
    have hk : 1 + 1 * n = n + 1 := by omega
    rw [hk]
    have hnot : (n + 1) ∉ List.range' 1 n := by
      intro hmem
      rcases List.mem_range'_1.mp hmem with ⟨-, hlt⟩
      omega
    rw [List.erase_append_right _ hnot]
    simp [List.erase_cons]

/-- One ledger operation preserves contiguity of the holding rounds. -/
lemma contiguous_applyOp (s : StockConfig) (op : LedgerOp)
    (h : ContiguousHoldings s) : ContiguousHoldings (applyOp s op) := by
  cases op with
  | buy now price quantity =>
    unfold applyOp ContiguousHoldings at *
    rw [holdingRounds_addPurchase, currentRound_addPurchase,
      List.range'_concat]
    have h1 : 1 + 1 * s.currentRound = s.currentRound + 1 := by omega
    rw [h1]
    exact h.append_right _
  | sellMax sp now =>
    unfold applyOp ContiguousHoldings at *
    have h1 : holdingRounds
        { s with purchases := markFirstSold s.currentRound sp now s.purchases } =
        (holdingRounds s).erase s.currentRound := by
      unfold holdingRounds StockConfig.holdingFilter
      rw [filter_markFirstSold, map_removeFirstRound]
    have hperm : List.Perm ((holdingRounds s).erase s.currentRound)
        (List.range' 1 (s.currentRound - 1)) := by
      calc List.Perm ((holdingRounds s).erase s.currentRound)
            ((List.range' 1 s.currentRound).erase s.currentRound) :=
              h.erase _
        _ = _ := by rw [range'_one_erase]
    have hcr : StockConfig.currentRound
        { s with purchases := markFirstSold s.currentRound sp now s.purchases } =
        s.currentRound - 1 := by
      rw [currentRound_eq_natMax, h1, natMax_perm hperm, natMax_range']
    rw [h1, hcr]
    exact hperm

/-- C2 counterexample base configuration: split rates 0 (a repeat buy at
the same price is allowed) and per-round target rates 0 and 5 percent. -/
def c2cfg : StockConfig :=
  { splitRates := List.replicate 10 0, targetRates := [0, 5] }

/-- C2 counterexample after the seeded round 1 at 10,000. -/
def c2s1 : StockConfig := (c2cfg.addPurchase 0 10000 1 none none).1

/-- C2 counterexample after the round 2 buy at 10,000. -/
def c2s2 : StockConfig := (c2s1.addPurchase 60 10000 1 none none).1

/-- C2 counterexample after selling round 1 (the only round whose target
is reached at 10,000). -/
def c2s3 : StockConfig :=
  { c2s2 with purchases := markFirstSold 1 10000 60 c2s2.purchases }

/-- C2 (counterexample).  The claim says the holding round numbers stay a
contiguous range `1..currentRound` after any sequence of buys and
sell-condition sells.  With split rate 0 and target rates `[0, 5]`, the
round 2 buy at the same price is a legitimate `should_buy` outcome, the
sell-condition check at 10,000 returns exactly round 1 (round 2 needs
10,500), and selling it leaves holding rounds `{2}` with
`currentRound = 2` — not the contiguous range `{1, 2}`. -/
theorem c2_counterexample :
    c2s1.shouldBuy 60 10000 = true ∧
    (c2s2.shouldSell 10000).map (fun p => p.round) = [1] ∧
    holdingRounds c2s3 = [2] ∧ c2s3.currentRound = 2 ∧
    ¬ ContiguousHoldings c2s3 := by
  refine ⟨?_, ?_, by decide, by decide, by decide⟩
  · norm_num [c2s1, c2cfg, StockConfig.shouldBuy, StockConfig.withinDwell,
      StockConfig.addPurchase, StockConfig.getNextSplitPrice,
      StockConfig.getLastPurchase, StockConfig.maxRound, pytrunc,
      StockConfig.currentRound, lastRound, StockConfig.holdingPurchases,
      StockConfig.holdingFilter, sortByRound, insertStable, lastRound]
  · norm_num [c2s2, c2s1, c2cfg, StockConfig.shouldSell,
      StockConfig.getSellablePurchases, StockConfig.sellTargetPrice,
      StockConfig.targetRateFor, pyListGet, pytrunc, StockConfig.addPurchase,
      StockConfig.currentRound, lastRound, StockConfig.holdingPurchases,
      StockConfig.holdingFilter, sortByRound, insertStable, lastRound]

/-- C2 (amended).  Starting from any configuration whose holding rounds
are the contiguous range `1..currentRound` (in particular an empty
ledger), any sequence of buys (`add_purchase`, as used by both live
trading and reconciliation) and of sells that target the current maximal
holding round keeps the holding round numbers exactly the contiguous
range `1..currentRound` with no duplicates.  (Without the restriction on
sells the property fails — see the counterexample — and round numbers
are reused after all holdings are sold, since `add_purchase` restarts
from `currentRound + 1 = 1`.) -/
theorem c2_holding_rounds_contiguous (s0 : StockConfig) (ops : List LedgerOp)
    (h : ContiguousHoldings s0) : ContiguousHoldings (applyOps s0 ops) := by
  induction ops generalizing s0 with
  | nil => exact h
  | cons op rest ih => exact ih (applyOp s0 op) (contiguous_applyOp s0 op h)

/-- C2 witness operation sequence: two buys then a sell of the maximal
round. -/
def c2wops : List LedgerOp :=
  [LedgerOp.buy 0 10000 1, LedgerOp.buy 60 9500 1, LedgerOp.sellMax 9975 120]

/-- C2 witness configuration: an empty ledger. -/
def c2wcfg : StockConfig := {}

/-- C2 witness: the contiguity theorem applied to a concrete run. -/
theorem c2_witness : ContiguousHoldings (applyOps c2wcfg c2wops) :=
  c2_holding_rounds_contiguous c2wcfg c2wops (by decide)

end SplitBot
